import Mathlib

/-!
Verification of the constant-expression evaluator (`ConstantExpression.cpp`).

The development shallowly embeds the evaluator: the scalar-kind model
(`Kind`, `integralPromotion`, `usualArithmeticConversion`), the literal
parser, the unary/binary/ternary node constructors, and the three value
renderers (`value0`, `cppValue`, `javaValue`).  Values are stored, as in
the source, as a single 64-bit unsigned pattern (`Nat` reduced mod 2^64)
reinterpreted per kind at each use.
-/

namespace Hidl

/-- `ScalarType::Kind`.  The constructor order reproduces the enumeration
order used by the source's `<` comparisons and by the `kName` table in
`description()`: bool, void* (KIND_OPAQUE, here `vptr`), int8, uint8,
int16, uint16, int32, uint32, int64, uint64, float, double. -/
inductive Kind where
  | bool | vptr | int8 | uint8 | int16 | uint16
  | int32 | uint32 | int64 | uint64 | float32 | float64
deriving DecidableEq, Fintype

/-- Numeric value of the enumerator; the source compares kinds with `<`
directly on these values. -/
def Kind.val : Kind → Nat
  | .bool => 0 | .vptr => 1 | .int8 => 2 | .uint8 => 3
  | .int16 => 4 | .uint16 => 5 | .int32 => 6 | .uint32 => 7
  | .int64 => 8 | .uint64 => 9 | .float32 => 10 | .float64 => 11

/-- Classification of a kind for the `SWITCH_KIND` dispatch: the nine
kinds the evaluator computes with, versus the default branch. -/
inductive KClass where
  | kbool
  | ksigned (w : Nat)
  | kunsigned (w : Nat)
  | invalid
deriving DecidableEq

/-- The C type each kind dispatches to in `SWITCH_KIND`; `KIND_OPAQUE`
and the floating kinds fall into the `default:` branch. -/
def Kind.cls : Kind → KClass
  | .bool => .kbool
  | .int8 => .ksigned 8
  | .uint8 => .kunsigned 8
  | .int16 => .ksigned 16
  | .uint16 => .kunsigned 16
  | .int32 => .ksigned 32
  | .uint32 => .kunsigned 32
  | .int64 => .ksigned 64
  | .uint64 => .kunsigned 64
  | .float32 => .invalid
  | .float64 => .invalid
  | .vptr => .invalid

/-- `integralPromotion`: `SK(INT32) < in ? in : SK(INT32)`. -/
def integralPromotion (i : Kind) : Kind :=
  if Kind.int32.val < i.val then i else Kind.int32

/-- The signedness test of `usualArithmeticConversion` (lines 70-73). -/
def Kind.isSignedOp (k : Kind) : Bool :=
  k = .int8 || k = .int16 || k = .int32 || k = .int64

/-- The `CHECK` precondition of `usualArithmeticConversion`:
both kinds in `[KIND_BOOL, KIND_UINT64]` and neither `KIND_OPAQUE`. -/
def uacPreOK (lft rgt : Kind) : Bool :=
  lft.val ≤ Kind.uint64.val && rgt.val ≤ Kind.uint64.val &&
  lft ≠ Kind.vptr && rgt ≠ Kind.vptr

/-- True when `usualArithmeticConversion` falls through both rank
comparisons into the `LOG(FATAL)` "should not reach here" branch. -/
def uacFatalBranch (lft rgt : Kind) : Bool :=
  if lft = rgt then false
  else if lft = .bool then false
  else if rgt = .bool then false
  else if lft.isSignedOp = rgt.isSignedOp then false
  else
    let unsignedRank := if lft.isSignedOp then rgt else lft
    let signedRank := if lft.isSignedOp then lft else rgt
    ¬(unsignedRank.val ≥ signedRank.val) && ¬(signedRank.val > unsignedRank.val)

/-- `usualArithmeticConversion` (lines 61-91).  The entry `CHECK` and the
`LOG(FATAL)` before the final switch abort the process in C++; the final
switch (the source's own dead code) is kept so the function is total. -/
def usualArithmeticConversion (lft rgt : Kind) : Kind :=
  if lft = rgt then lft
  else if lft = .bool then rgt
  else if rgt = .bool then lft
  else if lft.isSignedOp = rgt.isSignedOp then
    (if lft.val < rgt.val then rgt else lft)
  else
    let unsignedRank := if lft.isSignedOp then rgt else lft
    let signedRank := if lft.isSignedOp then lft else rgt
    if unsignedRank.val ≥ signedRank.val then unsignedRank
    else if signedRank.val > unsignedRank.val then signedRank
    else -- LOG(FATAL); dead code follows in the source
      match signedRank with
      | .int8 => .uint8
      | .int16 => .uint16
      | .int32 => .uint32
      | .int64 => .uint64
      | _ => .uint64

example : usualArithmeticConversion .int32 .uint32 = .uint32 := by decide
example : usualArithmeticConversion .uint8 .int16 = .int16 := by decide
example : integralPromotion .bool = .int32 := by decide
example : integralPromotion .uint32 = .uint32 := by decide
example : ∀ a b : Kind, uacPreOK a b = true → uacFatalBranch a b = false := by decide

/-! ## Value semantics

`mValue` is a `uint64_t`; a value of kind `k` is read out of it by
`static_cast` to the kind's C type and written back by the implicit
conversion to `uint64_t` (zero- or sign-extension). -/

/-- Low `w` bits of the stored pattern, as the unsigned C value. -/
def toU (w : Nat) (v : Nat) : Nat := v % 2 ^ w

/-- Low `w` bits of the stored pattern, two's-complement interpreted. -/
def toS (w : Nat) (v : Nat) : Int :=
  if v % 2 ^ w < 2 ^ (w - 1) then (v % 2 ^ w : Nat)
  else (v % 2 ^ w : Nat) - (2 ^ w : Nat)

/-- Wrap an integer into the `w`-bit two's-complement range (the
implementation-defined narrowing conversion of the target compilers). -/
def swrap (w : Nat) (i : Int) : Int :=
  (i + 2 ^ (w - 1)) % 2 ^ w - 2 ^ (w - 1)

/-- Store a (width-wrapped) signed value into the `uint64_t` field:
conversion to `uint64_t` is reduction mod 2^64. -/
def storeS (i : Int) : Nat := (i % (2 ^ 64 : Int)).toNat

/-- Sign-extension of the low `w` bits into the 64-bit storage. -/
def signExtend (w : Nat) (v : Nat) : Nat := storeS (toS w v)

/-- `static_cast<__type__>(mValue)` followed by the implicit conversion
back to the `uint64_t` storage (the exact round trip `CASE_TERNARY`
performs on the chosen branch). -/
def recastAt (k : Kind) (v : Nat) : Nat :=
  match k.cls with
  | .kbool => if v % 2 ^ 64 ≠ 0 then 1 else 0
  | .kunsigned w => toU w v
  | .ksigned w => signExtend w v
  | .invalid => v

/-- Numeric value of `cast<target>()` on a node of kind `k` storing `v`:
`static_cast<target-type>(static_cast<k-type>(mValue))` (lines 373-380).
For an `invalid` source kind the source hits `CHECK(false)`. -/
def castTo (target : Kind) (k : Kind) (v : Nat) : Int :=
  let inner : Int :=
    match k.cls with
    | .kbool => if v % 2 ^ 64 ≠ 0 then 1 else 0
    | .kunsigned w => toU w v
    | .ksigned w => toS w v
    | .invalid => 0 -- CHECK(false) aborts in C++
  match target.cls with
  | .kbool => if inner ≠ 0 then 1 else 0
  | .kunsigned w => inner % ((2 : Int) ^ w)
  | .ksigned w => swrap w inner
  | .invalid => 0 -- CHECK(false) aborts in C++

/-- Truncated (C-style) integer division, total with `tdiv0 a 0 = 0`
(division by zero is undefined in C; no claim depends on this point). -/
def tdiv0 (a b : Int) : Int :=
  if b = 0 then 0
  else if (0 ≤ a) = (0 ≤ b) then (a.natAbs / b.natAbs : Nat)
  else -((a.natAbs / b.natAbs : Nat) : Int)

/-- Truncated (C-style) remainder, total with `tmod0 a 0 = 0`. -/
def tmod0 (a b : Int) : Int := a - b * tdiv0 a b

/-- `handleUnary` dispatched at kind `k` (the `SWITCH_KIND` cases of the
unary constructor): applies the C operator to the reinterpreted value and
returns the resulting `uint64_t` storage.  Narrow operands undergo the C
integral promotion to `int` inside the expression and the result is then
converted back to the operand's own type. -/
def handleUnary (k : Kind) (op : String) (v : Nat) : Nat :=
  match k.cls with
  | .kbool =>
    if op = "+" then (if v % 2 ^ 64 ≠ 0 then 1 else 0)
    else if op = "-" then (if v % 2 ^ 64 ≠ 0 then 1 else 0)
    else if op = "!" then (if v % 2 ^ 64 ≠ 0 then 0 else 1)
    else if op = "~" then 1
    else 1 -- LOG(FATAL); dead `return static_cast<T>(0xdeadbeef)`
  | .kunsigned w =>
    let x := toU w v
    if op = "+" then x
    else if op = "-" then (2 ^ w - x) % 2 ^ w
    else if op = "!" then (if x = 0 then 1 else 0)
    else if op = "~" then 2 ^ w - 1 - x
    else 0xdeadbeef % 2 ^ w
  | .ksigned w =>
    let x := toS w v
    if op = "+" then storeS x
    else if op = "-" then storeS (swrap w (-x))
    else if op = "!" then (if x = 0 then 1 else 0)
    else if op = "~" then storeS (swrap w (-(x + 1)))
    else storeS (swrap w 0xdeadbeef)
  | .invalid => v -- SWITCH_KIND default: never calls handleUnary

/-- `handleBinaryCommon` dispatched at the promoted kind `k`: the
arithmetic, bitwise and comparison cases.  Comparison results are the C
`bool` converted to the working type, i.e. storage 0 or 1. -/
def handleBinaryCommon (k : Kind) (op : String) (lv rv : Nat) : Nat :=
  match k.cls with
  | .kbool =>
    let x : Int := if lv % 2 ^ 64 ≠ 0 then 1 else 0
    let y : Int := if rv % 2 ^ 64 ≠ 0 then 1 else 0
    let r : Int :=
      if op = "+" then x + y
      else if op = "-" then x - y
      else if op = "*" then x * y
      else if op = "/" then tdiv0 x y
      else if op = "%" then tmod0 x y
      else if op = "|" then if x ≠ 0 ∨ y ≠ 0 then 1 else 0
      else if op = "^" then if (x = 0) = (y = 0) then 0 else 1
      else if op = "&" then if x ≠ 0 ∧ y ≠ 0 then 1 else 0
      else if op = "==" then if x = y then 1 else 0
      else if op = "!=" then if x ≠ y then 1 else 0
      else if op = "<" then if x < y then 1 else 0
      else if op = ">" then if y < x then 1 else 0
      else if op = "<=" then if x ≤ y then 1 else 0
      else if op = ">=" then if y ≤ x then 1 else 0
      else 1 -- LOG(FATAL); dead 0xdeadbeef
    if r ≠ 0 then 1 else 0
  | .kunsigned w =>
    let x := toU w lv
    let y := toU w rv
    if op = "+" then (x + y) % 2 ^ w
    else if op = "-" then (x + (2 ^ w - y)) % 2 ^ w
    else if op = "*" then x * y % 2 ^ w
    else if op = "/" then if y = 0 then 0 else x / y
    else if op = "%" then if y = 0 then 0 else x % y
    else if op = "|" then x ||| y
    else if op = "^" then x ^^^ y
    else if op = "&" then x &&& y
    else if op = "==" then if x = y then 1 else 0
    else if op = "!=" then if x ≠ y then 1 else 0
    else if op = "<" then if x < y then 1 else 0
    else if op = ">" then if y < x then 1 else 0
    else if op = "<=" then if x ≤ y then 1 else 0
    else if op = ">=" then if y ≤ x then 1 else 0
    else 0xdeadbeef % 2 ^ w
  | .ksigned w =>
    let x := toS w lv
    let y := toS w rv
    if op = "+" then storeS (swrap w (x + y))
    else if op = "-" then storeS (swrap w (x - y))
    else if op = "*" then storeS (swrap w (x * y))
    else if op = "/" then storeS (swrap w (tdiv0 x y))
    else if op = "%" then storeS (swrap w (tmod0 x y))
    else if op = "|" then signExtend w (toU w lv ||| toU w rv)
    else if op = "^" then signExtend w (toU w lv ^^^ toU w rv)
    else if op = "&" then signExtend w (toU w lv &&& toU w rv)
    else if op = "==" then if x = y then 1 else 0
    else if op = "!=" then if x ≠ y then 1 else 0
    else if op = "<" then if x < y then 1 else 0
    else if op = ">" then if y < x then 1 else 0
    else if op = "<=" then if x ≤ y then 1 else 0
    else if op = ">=" then if y ≤ x then 1 else 0
    else storeS (swrap w 0xdeadbeef)
  | .invalid => lv -- SWITCH_KIND default: never calls handleBinaryCommon

/-- Hardware shift-count behavior of the evaluation platform: the count's
bit pattern is taken mod the operand width (this matches the behavior the
source documents for the out-of-range case, `1 << 32 == 1`). -/
def shiftCount (w : Nat) (c : Int) : Nat := (c % (w : Int)).toNat

/-- `handleShift` dispatched at the (promoted) left-operand kind. -/
def handleShift (k : Kind) (op : String) (lv : Nat) (numBits : Int) : Nat :=
  match k.cls with
  | .kbool =>
    let x : Nat := if lv % 2 ^ 64 ≠ 0 then 1 else 0
    let n := shiftCount 32 numBits
    if op = ">>" then (if x / 2 ^ n ≠ 0 then 1 else 0)
    else if op = "<<" then (if x * 2 ^ n % 2 ^ 32 ≠ 0 then 1 else 0)
    else 1 -- LOG(FATAL); dead 0xdeadbeef
  | .kunsigned w =>
    let x := toU w lv
    let n := shiftCount w numBits
    if op = ">>" then x / 2 ^ n
    else if op = "<<" then x * 2 ^ n % 2 ^ w
    else 0xdeadbeef % 2 ^ w
  | .ksigned w =>
    let n := shiftCount w numBits
    if op = ">>" then storeS (toS w lv / (2 : Int) ^ n) -- arithmetic shift
    else if op = "<<" then signExtend w (toU w lv * 2 ^ n)
    else storeS (swrap w 0xdeadbeef)
  | .invalid => lv -- SWITCH_KIND default: never calls handleShift

/-- `handleLogical`: both `uint64_t` operands have already been converted
to `bool` at the call; the result is the `bool` stored back as 0/1. -/
def handleLogical (op : String) (lv rv : Nat) : Nat :=
  let x := lv % 2 ^ 64 ≠ 0
  let y := rv % 2 ^ 64 ≠ 0
  if op = "||" then (if x ∨ y then 1 else 0)
  else if op = "&&" then (if x ∧ y then 1 else 0)
  else 0 -- LOG(FATAL); dead `return false`

/-! ## Literal parsing -/

/-- A character the suffix-stripping loop consumes. -/
def suffixChar (c : Char) : Bool := c = 'u' || c = 'U' || c = 'l' || c = 'L'

/-- An unsigned-suffix character. -/
def uChar (c : Char) : Bool := c = 'u' || c = 'U'

/-- A long-suffix character. -/
def lChar (c : Char) : Bool := c = 'l' || c = 'L'

/-- The suffix-stripping loop of the literal constructor (lines 156-160),
run on the reversed text: consume suffix characters, or-ing the unsigned
and long flags, and stop at the first non-suffix character.  Returns the
unconsumed (still reversed) remainder and the `(isUnsigned, isLong)`
flags. -/
def stripLoop : List Char → List Char × Bool × Bool
  | [] => ([], false, false)
  | c :: cs =>
    if suffixChar c then
      let r := stripLoop cs
      (r.1, r.2.1 || uChar c, r.2.2 || lChar c)
    else (c :: cs, false, false)

/-- `value[0] == '0' && (value[1] == 'x' || value[1] == 'X')` (line 155). -/
def isHexText : List Char → Bool
  | c0 :: c1 :: _ => c0 = '0' && (c1 = 'x' || c1 = 'X')
  | _ => false

/-- Value of a decimal digit character, `none` otherwise. -/
def decDigit (c : Char) : Option Nat :=
  if '0' ≤ c ∧ c ≤ '9' then some (c.toNat - '0'.toNat) else none

/-- Value of a hexadecimal digit character, `none` otherwise. -/
def hexDigit (c : Char) : Option Nat :=
  if '0' ≤ c ∧ c ≤ '9' then some (c.toNat - '0'.toNat)
  else if 'a' ≤ c ∧ c ≤ 'f' then some (c.toNat - 'a'.toNat + 10)
  else if 'A' ≤ c ∧ c ≤ 'F' then some (c.toNat - 'A'.toNat + 10)
  else none

/-- Accumulating digit scan: fails on the first non-digit character. -/
def parseDigitsAux (dv : Char → Option Nat) (base : Nat) : Nat → List Char → Option Nat
  | acc, [] => some acc
  | acc, c :: cs =>
    match dv c with
    | some d => parseDigitsAux dv base (acc * base + d) cs
    | none => none

/-- Digit scan requiring at least one digit. -/
def parseDigitsNE (dv : Char → Option Nat) (base : Nat) : List Char → Option Nat
  | [] => none
  | c :: cs => parseDigitsAux dv base 0 (c :: cs)

/-- Modelled from the spec: `android::base::ParseUint<uint64_t>`, the
integer-parsing helper the literal constructor calls, is not part of this
repository.  Per the spec (§4.2) the remaining prefix must "parse as a
non-negative 64-bit integer", with base 16 for a `0x`/`0X`-prefixed text
and base 10 otherwise, and the parse fails on any other text or when the
value exceeds the 64-bit range. -/
def parseUint64 (s : List Char) : Option Nat :=
  let core :=
    if isHexText s then parseDigitsNE hexDigit 16 (s.drop 2)
    else parseDigitsNE decDigit 10 s
  match core with
  | some v => if v < 2 ^ 64 then some v else none
  | none => none

/-- Limits from `<stdint.h>` used by the kind-guessing code. -/
def INT32_MAXv : Nat := 2 ^ 31 - 1

/-- `UINT32_MAX`. -/
def UINT32_MAXv : Nat := 2 ^ 32 - 1

/-- `INT64_MAX`. -/
def INT64_MAXv : Nat := 2 ^ 63 - 1

/-- The "guess literal type" block of the literal constructor
(lines 170-199). -/
def guessKind (isLong isUnsigned isHex : Bool) (v : Nat) : Kind :=
  if isLong then (if isUnsigned then .uint64 else .int64)
  else if isUnsigned then (if v ≤ UINT32_MAXv then .uint32 else .uint64)
  else if isHex then
    (if v ≤ INT32_MAXv then .int32
     else if v ≤ UINT32_MAXv then .uint32
     else if v ≤ INT64_MAXv then .int64
     else .uint64) -- `v <= UINT64_MAX` always holds for a uint64_t value
  else (if v ≤ INT32_MAXv then .int32 else .int64)

/-! ## Expression nodes -/

/-- `ConstantExpression::ConstExprType`. -/
inductive ConstExprType where
  | literal | unary | binary | ternary | unknown
deriving DecidableEq

/-- A `ConstantExpression` node.  `mFormatted` is kept as a character
list; `mValue` is the `uint64_t` storage.  Where the C++ object leaves a
field uninitialized (Unknown nodes), the embedding stores `Kind.bool` / `0`;
no theorem below depends on those choices except where explicitly
hypothesized. -/
structure CE where
  mFormatted : List Char
  mType : ConstExprType
  mValueKind : Kind
  mValue : Nat
deriving DecidableEq

/-- Shorthand: the character list of a string literal. -/
def strL (s : String) : List Char := s.data

/-- `expr()`. -/
def CE.expr (e : CE) : List Char := e.mFormatted

/-- The literal constructor `ConstantExpression(const char *value,
ConstExprType type)` (lines 148-200).  On parse failure the source logs
`LOG(FATAL)` — which aborts the process — and then contains the
(unreachable) recovery `mType = kConstExprUnknown; return;`.  The
embedding models that written-out recovery path; see claim C2. -/
def literalCE (value : List Char) (type : ConstExprType) : CE :=
  if type = .unknown then
    { mFormatted := value, mType := type, mValueKind := .bool, mValue := 0 }
  else
    let stripped := stripLoop value.reverse
    match parseUint64 stripped.1.reverse with
    | none => { mFormatted := value, mType := .unknown, mValueKind := .bool, mValue := 0 }
    | some v =>
      { mFormatted := value, mType := type,
        mValueKind := guessKind stripped.2.2 stripped.2.1 (isHexText value) v,
        mValue := v }

/-- The unary constructor (lines 203-215). -/
def unaryCE (op : String) (value : CE) : CE :=
  let fm := ['('] ++ op.data ++ value.mFormatted ++ [')']
  if value.mType = .unknown then
    { mFormatted := fm, mType := .unknown, mValueKind := value.mValueKind, mValue := 0 }
  else if value.mValueKind.cls = .invalid then
    -- SWITCH_KIND default: mType = kConstExprUnknown
    { mFormatted := fm, mType := .unknown, mValueKind := value.mValueKind, mValue := 0 }
  else
    { mFormatted := fm, mType := .unary, mValueKind := value.mValueKind,
      mValue := handleUnary value.mValueKind op value.mValue }

/-- `OP_IS_BIN_ARITHMETIC`. -/
def OP_IS_BIN_ARITHMETIC (op : String) : Bool :=
  op = "+" || op = "-" || op = "*" || op = "/" || op = "%"

/-- `OP_IS_BIN_BITFLIP`. -/
def OP_IS_BIN_BITFLIP (op : String) : Bool :=
  op = "|" || op = "^" || op = "&"

/-- `OP_IS_BIN_COMP`. -/
def OP_IS_BIN_COMP (op : String) : Bool :=
  op = "<" || op = ">" || op = "<=" || op = ">=" || op = "==" || op = "!="

/-- `OP_IS_BIN_SHIFT`. -/
def OP_IS_BIN_SHIFT (op : String) : Bool :=
  op = ">>" || op = "<<"

/-- `OP_IS_BIN_LOGICAL`. -/
def OP_IS_BIN_LOGICAL (op : String) : Bool :=
  op = "||" || op = "&&"

/-- The binary constructor (lines 218-274). -/
def binCE (lval : CE) (op : String) (rval : CE) : CE :=
  let fm := ['('] ++ lval.mFormatted ++ [' '] ++ op.data ++ [' '] ++ rval.mFormatted ++ [')']
  if lval.mType = .unknown ∨ rval.mType = .unknown then
    { mFormatted := fm, mType := .unknown, mValueKind := .bool, mValue := 0 }
  else if OP_IS_BIN_ARITHMETIC op || OP_IS_BIN_BITFLIP op || OP_IS_BIN_COMP op then
    -- CASE 1: + - * / % | ^ & < > <= >= == !=
    let promoted := usualArithmeticConversion
      (integralPromotion lval.mValueKind) (integralPromotion rval.mValueKind)
    let rk := if OP_IS_BIN_ARITHMETIC op || OP_IS_BIN_BITFLIP op then promoted else Kind.bool
    if promoted.cls = .invalid then
      { mFormatted := fm, mType := .unknown, mValueKind := rk, mValue := 0 }
    else
      { mFormatted := fm, mType := .binary, mValueKind := rk,
        mValue := handleBinaryCommon promoted op lval.mValue rval.mValue }
  else if OP_IS_BIN_SHIFT op then
    -- CASE 2: << >>
    let rk := integralPromotion lval.mValueKind
    let numBits := castTo .int64 rval.mValueKind rval.mValue
    -- negative count: flip direction, negate count (int64 negation wraps)
    let op2 := if numBits < 0 then (if op = "<<" then ">>" else "<<") else op
    let numBits2 := if numBits < 0 then swrap 64 (-numBits) else numBits
    if rk.cls = .invalid then
      { mFormatted := fm, mType := .unknown, mValueKind := rk, mValue := 0 }
    else
      { mFormatted := fm, mType := .binary, mValueKind := rk,
        mValue := handleShift rk op2 lval.mValue numBits2 }
  else if OP_IS_BIN_LOGICAL op then
    -- CASE 3: && ||
    { mFormatted := fm, mType := .binary, mValueKind := .bool,
      mValue := handleLogical op lval.mValue rval.mValue }
  else
    { mFormatted := fm, mType := .unknown, mValueKind := .bool, mValue := 0 }

/-- The ternary constructor (lines 277-291).  Note: the source performs
no Unknown check on any of the three children. -/
def ternCE (cond trueVal falseVal : CE) : CE :=
  let fm := ['('] ++ cond.mFormatted ++ ['?'] ++ trueVal.mFormatted
            ++ [':'] ++ falseVal.mFormatted ++ [')']
  let k := usualArithmeticConversion trueVal.mValueKind falseVal.mValueKind
  if k.cls = .invalid then
    { mFormatted := fm, mType := .unknown, mValueKind := k, mValue := 0 }
  else
    { mFormatted := fm, mType := .ternary, mValueKind := k,
      mValue := if cond.mValue % 2 ^ 64 ≠ 0 then recastAt k trueVal.mValue
                else recastAt k falseVal.mValue }

/-! ## Rendering -/

/-- Little-endian decimal digit characters of `n`; the first argument is
recursion fuel (any fuel `≥ n` yields the digits of `n`). -/
def natToDecAux : Nat → Nat → List Char
  | 0, _ => []
  | _ + 1, 0 => []
  | fuel + 1, n + 1 =>
    Nat.digitChar ((n + 1) % 10) :: natToDecAux fuel ((n + 1) / 10)

/-- Decimal rendering of a natural number, as `std::to_string` does. -/
def natToDec (n : Nat) : List Char :=
  if n = 0 then ['0'] else (natToDecAux n n).reverse

/-- Decimal rendering of an integer, as `std::to_string` does. -/
def intToChars (i : Int) : List Char :=
  if i < 0 then '-' :: natToDec i.natAbs else natToDec i.toNat

/-- `value0(castKind)` (lines 364-371): Unknown nodes fall back to the
reconstructed source text; so does the `SWITCH_KIND` default branch.
Otherwise `std::to_string(cast<castKind-type>())`. -/
def value0 (e : CE) (castKind : Kind) : List Char :=
  if e.mType = .unknown then e.mFormatted
  else if castKind.cls = .invalid then e.mFormatted
  else intToChars (castTo castKind e.mValueKind e.mValue)

/-- `value()` (lines 319-321): render at the node's own kind. -/
def valueSelf (e : CE) : List Char := value0 e e.mValueKind

/-- `cppValue(castKind)` (lines 323-347).  `ScalarType(SK(INT64))
.getCppType(...)` lives in the out-of-scope type-system collaborator; per
the source's own comment it returns the spelling `"int64_t"`. -/
def cppValue (e : CE) (castKind : Kind) : List Char :=
  let literal := value0 e castKind
  if castKind = .int64 ∧ swrap 64 (e.mValue : Int) = -(2 ^ 63) then
    strL "(" ++ strL "int64_t" ++ strL ")(" ++ literal ++ strL "ull)"
  else
    let lit2 := if castKind = .uint32 ∨ castKind = .uint64 then literal ++ ['u'] else literal
    if castKind = .uint64 ∨ castKind = .int64 then lit2 ++ ['l', 'l'] else lit2

/-- `javaValue(castKind)` (lines 349-362). -/
def javaValue (e : CE) (castKind : Kind) : List Char :=
  match castKind with
  | .uint64 => value0 e .int64
  | .uint32 => value0 e .int32
  | .uint16 => value0 e .int16
  | .uint8 => value0 e .int8
  | .bool =>
    if e.mType = .unknown then e.mFormatted
    else if castTo .bool e.mValueKind e.mValue ≠ 0 then strL "true" else strL "false"
  | _ => value0 e castKind

/-! ## Sanity checks (spec §8 end-to-end examples) -/

example : -- `1 + 2` → kind int32, value 3
    (binCE (literalCE (strL "1") .literal) "+" (literalCE (strL "2") .literal)).mValueKind
      = .int32 ∧
    (binCE (literalCE (strL "1") .literal) "+" (literalCE (strL "2") .literal)).mValue = 3 := by
  decide

example : -- `1u + 2` → kind uint32, value 3
    (binCE (literalCE (strL "1u") .literal) "+" (literalCE (strL "2") .literal)).mValueKind
      = .uint32 ∧
    (binCE (literalCE (strL "1u") .literal) "+" (literalCE (strL "2") .literal)).mValue = 3 := by
  decide

example : -- unary minus on literal 1 → kind int32, value -1 (sign-extended storage)
    (unaryCE "-" (literalCE (strL "1") .literal)).mValueKind = .int32 ∧
    (unaryCE "-" (literalCE (strL "1") .literal)).mValue = 2 ^ 64 - 1 := by
  decide

example : -- `1 << 32 == 1` (the documented platform behavior)
    (binCE (literalCE (strL "1") .literal) "<<" (literalCE (strL "32") .literal)).mValue
      = 1 := by decide

example : -- `true ? 1 : 2u` : conversion of int32/uint32 → uint32, value 1
    (ternCE (binCE (literalCE (strL "1") .literal) "==" (literalCE (strL "1") .literal))
        (literalCE (strL "1") .literal) (literalCE (strL "2u") .literal)).mValueKind
      = .uint32 ∧
    (ternCE (binCE (literalCE (strL "1") .literal) "==" (literalCE (strL "1") .literal))
        (literalCE (strL "1") .literal) (literalCE (strL "2u") .literal)).mValue = 1 := by
  decide

example : (literalCE (strL "0xFFFFFFFF") .literal).mValueKind = .uint32 := by decide
example : (literalCE (strL "0x7FFFFFFF") .literal).mValueKind = .int32 := by decide
example : (literalCE (strL "0x80000000") .literal).mValueKind = .uint32 := by decide
example : (literalCE (strL "10") .literal).mValueKind = .int32 := by decide
example : (literalCE (strL "10u") .literal).mValueKind = .uint32 := by decide
example : (literalCE (strL "10ul") .literal).mValueKind = .uint64 := by decide
example : (literalCE (strL "10l") .literal).mValueKind = .int64 := by decide
example : (literalCE (strL "4294967296") .literal).mValueKind = .int64 := by decide
example : valueSelf (unaryCE "-" (literalCE (strL "1") .literal)) = strL "-1" := by decide
example : valueSelf (literalCE (strL "0x10") .literal) = strL "16" := by decide

example : -- the INT64_MIN native-rendering hack: 1l << 63
    cppValue (binCE (literalCE (strL "1l") .literal) "<<" (literalCE (strL "63") .literal))
        .int64
      = strL "(int64_t)(-9223372036854775808ull)" := by decide

/-! ## Claims -/

/-- The promoted working kind of a binary arithmetic/bitwise/comparison
node over bool-or-integer operand kinds is one of the four 32/64-bit
kinds. -/
lemma promotedMem (a b : Kind) (ha : a.cls ≠ KClass.invalid) (hb : b.cls ≠ KClass.invalid) :
    usualArithmeticConversion (integralPromotion a) (integralPromotion b) = Kind.int32 ∨
    usualArithmeticConversion (integralPromotion a) (integralPromotion b) = Kind.uint32 ∨
    usualArithmeticConversion (integralPromotion a) (integralPromotion b) = Kind.int64 ∨
    usualArithmeticConversion (integralPromotion a) (integralPromotion b) = Kind.uint64 := by
  revert a b; decide

/-- Integral promotion of a bool-or-integer kind is one of the four
32/64-bit kinds. -/
lemma ipMem (a : Kind) (ha : a.cls ≠ KClass.invalid) :
    integralPromotion a = Kind.int32 ∨ integralPromotion a = Kind.uint32 ∨
    integralPromotion a = Kind.int64 ∨ integralPromotion a = Kind.uint64 := by
  revert a; decide

/-- C10: for every pair of bool-or-integer kinds that does not reach the
fatal internal-error branch, `usualArithmeticConversion` returns one of
its two arguments, and (when neither argument is boolean) the returned
kind's rank is at least the rank of each argument. -/
theorem C10_uac_returns_operand (a b : Kind)
    (hpre : uacPreOK a b = true) (hnf : uacFatalBranch a b = false) :
    (usualArithmeticConversion a b = a ∨ usualArithmeticConversion a b = b) ∧
    (a ≠ .bool → b ≠ .bool →
      a.val ≤ (usualArithmeticConversion a b).val ∧
      b.val ≤ (usualArithmeticConversion a b).val) := by
  revert a b; decide

/-- C10 witness: the theorem at the concrete pair (int8, uint16). -/
theorem C10_uac_witness :
    uacPreOK .int8 .uint16 = true ∧ uacFatalBranch .int8 .uint16 = false ∧
    ((usualArithmeticConversion .int8 .uint16 = .int8 ∨
      usualArithmeticConversion .int8 .uint16 = .uint16) ∧
     (Kind.int8 ≠ .bool → Kind.uint16 ≠ .bool →
       Kind.int8.val ≤ (usualArithmeticConversion .int8 .uint16).val ∧
       Kind.uint16.val ≤ (usualArithmeticConversion .int8 .uint16).val)) :=
  ⟨by decide, by decide, C10_uac_returns_operand .int8 .uint16 (by decide) (by decide)⟩

/-- Characterization of a binary node's result kind for non-Unknown
children, following the constructor's three cases. -/
lemma binCE_mValueKind (l : CE) (op : String) (r : CE)
    (hl : l.mType ≠ .unknown) (hr : r.mType ≠ .unknown) :
    (binCE l op r).mValueKind =
      (if (OP_IS_BIN_ARITHMETIC op || OP_IS_BIN_BITFLIP op || OP_IS_BIN_COMP op) = true then
        (if (OP_IS_BIN_ARITHMETIC op || OP_IS_BIN_BITFLIP op) = true then
          usualArithmeticConversion (integralPromotion l.mValueKind)
            (integralPromotion r.mValueKind)
         else Kind.bool)
       else if OP_IS_BIN_SHIFT op = true then integralPromotion l.mValueKind
       else Kind.bool) := by
  have hor : ¬(l.mType = .unknown ∨ r.mType = .unknown) := not_or.mpr ⟨hl, hr⟩
  by_cases h1 : (OP_IS_BIN_ARITHMETIC op || OP_IS_BIN_BITFLIP op || OP_IS_BIN_COMP op) = true
  · by_cases h2 : (OP_IS_BIN_ARITHMETIC op || OP_IS_BIN_BITFLIP op) = true
    · by_cases h3 : (usualArithmeticConversion (integralPromotion l.mValueKind)
        (integralPromotion r.mValueKind)).cls = KClass.invalid
      all_goals simp [binCE, hor, h1, h2, h3]
    · have h7 : OP_IS_BIN_COMP op = true := by
        revert h1 h2
        cases OP_IS_BIN_ARITHMETIC op <;> cases OP_IS_BIN_BITFLIP op <;>
          cases OP_IS_BIN_COMP op <;> simp
      by_cases h3 : (usualArithmeticConversion (integralPromotion l.mValueKind)
        (integralPromotion r.mValueKind)).cls = KClass.invalid
      all_goals simp [binCE, hor, h1, h2, h3, h7]
  · by_cases h4 : OP_IS_BIN_SHIFT op = true
    · by_cases h5 : (integralPromotion l.mValueKind).cls = KClass.invalid
      all_goals simp [binCE, hor, h1, h4, h5]
    · by_cases h6 : OP_IS_BIN_LOGICAL op = true
      all_goals simp [binCE, hor, h1, h4, h6]

/-- C9: a binary arithmetic, bitwise or shift node built from
non-Unknown children with bool-or-integer kinds always gets a result
kind among int32, uint32, int64, uint64. -/
theorem C9_binary_result_kind (op : String) (l r : CE)
    (hop : op ∈ ["+", "-", "*", "/", "%", "|", "^", "&", "<<", ">>"])
    (hl : l.mType ≠ .unknown) (hr : r.mType ≠ .unknown)
    (hlk : l.mValueKind.cls ≠ KClass.invalid) (hrk : r.mValueKind.cls ≠ KClass.invalid) :
    (binCE l op r).mValueKind = .int32 ∨ (binCE l op r).mValueKind = .uint32 ∨
    (binCE l op r).mValueKind = .int64 ∨ (binCE l op r).mValueKind = .uint64 := by
  fin_cases hop <;>
    · rw [binCE_mValueKind l _ r hl hr]
      simp [OP_IS_BIN_ARITHMETIC, OP_IS_BIN_BITFLIP, OP_IS_BIN_COMP, OP_IS_BIN_SHIFT]
      first
        | exact promotedMem _ _ hlk hrk
        | exact ipMem _ hlk

/-- C9 witness: the theorem at `1u + 2`. -/
theorem C9_binary_result_kind_witness :
    ("+" ∈ ["+", "-", "*", "/", "%", "|", "^", "&", "<<", ">>"]) ∧
    (literalCE (strL "1u") .literal).mType ≠ .unknown ∧
    (literalCE (strL "2") .literal).mType ≠ .unknown ∧
    (literalCE (strL "1u") .literal).mValueKind.cls ≠ KClass.invalid ∧
    (literalCE (strL "2") .literal).mValueKind.cls ≠ KClass.invalid ∧
    ((binCE (literalCE (strL "1u") .literal) "+" (literalCE (strL "2") .literal)).mValueKind
        = .int32 ∨
     (binCE (literalCE (strL "1u") .literal) "+" (literalCE (strL "2") .literal)).mValueKind
        = .uint32 ∨
     (binCE (literalCE (strL "1u") .literal) "+" (literalCE (strL "2") .literal)).mValueKind
        = .int64 ∨
     (binCE (literalCE (strL "1u") .literal) "+" (literalCE (strL "2") .literal)).mValueKind
        = .uint64) :=
  ⟨by decide, by decide, by decide, by decide, by decide,
   C9_binary_result_kind "+" _ _ (by decide) (by decide) (by decide) (by decide) (by decide)⟩

/-- `swrap w` lands in the `w`-bit two's-complement range. -/
lemma swrap_mem (w : Nat) (hw : 1 ≤ w) (i : Int) :
    -(2 ^ (w - 1)) ≤ swrap w i ∧ swrap w i < 2 ^ (w - 1) := by
  unfold swrap
  have h0 : (0 : Int) < 2 ^ w := by positivity
  have hmod := Int.emod_nonneg (i + 2 ^ (w - 1)) (by omega : (2 ^ w : Int) ≠ 0)
  have hlt := Int.emod_lt_of_pos (i + 2 ^ (w - 1)) h0
  have hsplit : (2 ^ w : Int) = 2 ^ (w - 1) + 2 ^ (w - 1) := by
    conv_lhs => rw [show w = (w - 1) + 1 from by omega]
    rw [pow_succ]; ring
  omega

/-- `swrap w` is the identity on the `w`-bit two's-complement range. -/
lemma swrap_eq_self (w : Nat) (i : Int)
    (h1 : -(2 ^ (w - 1)) ≤ i) (h2 : i < 2 ^ (w - 1)) (hw : 1 ≤ w) :
    swrap w i = i := by
  unfold swrap
  have hsplit : (2 ^ w : Int) = 2 ^ (w - 1) + 2 ^ (w - 1) := by
    conv_lhs => rw [show w = (w - 1) + 1 from by omega]
    rw [pow_succ]; ring
  rw [Int.emod_eq_of_lt (by omega) (by omega)]
  omega

/-- `cast<int64_t>()` always lands in the signed 64-bit range. -/
lemma castTo_int64_range (k : Kind) (v : Nat) :
    -(2 ^ 63) ≤ castTo .int64 k v ∧ castTo .int64 k v < 2 ^ 63 := by
  have h := swrap_mem 64 (by omega)
  simp only [castTo, Kind.cls]
  exact ⟨(h _).1, (h _).2⟩

/-- C5: for a non-Unknown left operand and a negative shift count, the
shift evaluates exactly as the opposite-direction shift by the negated
count (same value, kind and node type), and in both directions the
result kind is the integral promotion of the left operand's kind. -/
theorem C5_negative_shift_flip (l r r2 : CE)
    (hl : l.mType ≠ .unknown) (hr : r.mType ≠ .unknown) (hr2 : r2.mType ≠ .unknown)
    (hneg : castTo .int64 r.mValueKind r.mValue < 0)
    (hopp : castTo .int64 r2.mValueKind r2.mValue = -castTo .int64 r.mValueKind r.mValue) :
    ((binCE l "<<" r).mValue = (binCE l ">>" r2).mValue ∧
     (binCE l "<<" r).mValueKind = (binCE l ">>" r2).mValueKind ∧
     (binCE l "<<" r).mType = (binCE l ">>" r2).mType) ∧
    ((binCE l ">>" r).mValue = (binCE l "<<" r2).mValue ∧
     (binCE l ">>" r).mValueKind = (binCE l "<<" r2).mValueKind ∧
     (binCE l ">>" r).mType = (binCE l "<<" r2).mType) ∧
    (binCE l "<<" r).mValueKind = integralPromotion l.mValueKind ∧
    (binCE l ">>" r).mValueKind = integralPromotion l.mValueKind ∧
    (binCE l ">>" r2).mValueKind = integralPromotion l.mValueKind ∧
    (binCE l "<<" r2).mValueKind = integralPromotion l.mValueKind := by
  have hor : ¬(l.mType = .unknown ∨ r.mType = .unknown) := not_or.mpr ⟨hl, hr⟩
  have hor2 : ¬(l.mType = .unknown ∨ r2.mType = .unknown) := not_or.mpr ⟨hl, hr2⟩
  have hrange := castTo_int64_range r2.mValueKind r2.mValue
  have hn2 : ¬(castTo .int64 r2.mValueKind r2.mValue < 0) := by omega
  have hpos : ¬(0 < castTo .int64 r.mValueKind r.mValue) := by omega
  have hsw : swrap 64 (-castTo .int64 r.mValueKind r.mValue)
      = castTo .int64 r2.mValueKind r2.mValue := by
    rw [← hopp]
    exact swrap_eq_self 64 _ hrange.1 hrange.2 (by omega)
  by_cases hc : (integralPromotion l.mValueKind).cls = KClass.invalid <;>
    · refine ⟨⟨?_, ?_, ?_⟩, ⟨?_, ?_, ?_⟩, ?_, ?_, ?_, ?_⟩ <;>
        simp [binCE, OP_IS_BIN_ARITHMETIC, OP_IS_BIN_BITFLIP, OP_IS_BIN_COMP,
          OP_IS_BIN_SHIFT, OP_IS_BIN_LOGICAL, hor, hor2, hneg, hn2, hpos, hsw, hopp, hc]

/-- C5 witness: `5 << (-3)` versus `5 >> 3`. -/
theorem C5_negative_shift_flip_witness :
    ((literalCE (strL "5") .literal).mType ≠ .unknown ∧
     (unaryCE "-" (literalCE (strL "3") .literal)).mType ≠ .unknown ∧
     (literalCE (strL "3") .literal).mType ≠ .unknown ∧
     castTo .int64 (unaryCE "-" (literalCE (strL "3") .literal)).mValueKind
       (unaryCE "-" (literalCE (strL "3") .literal)).mValue < 0 ∧
     castTo .int64 (literalCE (strL "3") .literal).mValueKind
       (literalCE (strL "3") .literal).mValue
       = -castTo .int64 (unaryCE "-" (literalCE (strL "3") .literal)).mValueKind
           (unaryCE "-" (literalCE (strL "3") .literal)).mValue) ∧
    (binCE (literalCE (strL "5") .literal) "<<" (unaryCE "-" (literalCE (strL "3") .literal))).mValue
      = (binCE (literalCE (strL "5") .literal) ">>" (literalCE (strL "3") .literal)).mValue :=
  ⟨⟨by decide, by decide, by decide, by decide, by decide⟩,
   (C5_negative_shift_flip (literalCE (strL "5") .literal)
      (unaryCE "-" (literalCE (strL "3") .literal)) (literalCE (strL "3") .literal)
      (by decide) (by decide) (by decide) (by decide) (by decide)).1.1⟩

/-- C6: a unary node keeps exactly its child's kind (no integral
promotion), and for the nine computable kinds its value is the operator
applied to the child's value reinterpreted at the child's own kind. -/
theorem C6_unary_kind_preserved (op : String) (x : CE)
    (hop : op ∈ ["+", "-", "!", "~"]) (hx : x.mType ≠ .unknown) :
    (unaryCE op x).mValueKind = x.mValueKind ∧
    (x.mValueKind.cls ≠ KClass.invalid →
      (unaryCE op x).mType = .unary ∧
      (unaryCE op x).mValue = handleUnary x.mValueKind op x.mValue) := by
  constructor
  · by_cases h : x.mValueKind.cls = KClass.invalid <;> simp [unaryCE, hx, h]
  · intro hk
    simp [unaryCE, hx, hk]

/-- C6 witness: unary minus on the literal `1`. -/
theorem C6_unary_kind_preserved_witness :
    ("-" ∈ ["+", "-", "!", "~"]) ∧
    (literalCE (strL "1") .literal).mType ≠ .unknown ∧
    (literalCE (strL "1") .literal).mValueKind.cls ≠ KClass.invalid ∧
    (unaryCE "-" (literalCE (strL "1") .literal)).mValueKind
      = (literalCE (strL "1") .literal).mValueKind ∧
    (unaryCE "-" (literalCE (strL "1") .literal)).mType = .unary ∧
    (unaryCE "-" (literalCE (strL "1") .literal)).mValue
      = handleUnary (literalCE (strL "1") .literal).mValueKind "-"
          (literalCE (strL "1") .literal).mValue := by
  have h := C6_unary_kind_preserved "-" (literalCE (strL "1") .literal)
    (by decide) (by decide)
  exact ⟨by decide, by decide, by decide, h.1, (h.2 (by decide)).1, (h.2 (by decide)).2⟩

/-! Claim C1: Unknown propagation through constructed trees. -/

/-- Expression trees built from already-constructed leaves by the unary
and binary constructors. -/
inductive ETree where
  | leaf : CE → ETree
  | un : String → ETree → ETree
  | bin : ETree → String → ETree → ETree
deriving DecidableEq

/-- Bottom-up construction of the corresponding `ConstantExpression`. -/
def ETree.eval : ETree → CE
  | .leaf c => c
  | .un op t => unaryCE op (ETree.eval t)
  | .bin l op r => binCE (ETree.eval l) op (ETree.eval r)

/-- Whether some leaf of the tree is an Unknown node. -/
def ETree.hasUnknownLeaf : ETree → Bool
  | .leaf c => c.mType = .unknown
  | .un _ t => t.hasUnknownLeaf
  | .bin l _ r => l.hasUnknownLeaf || r.hasUnknownLeaf

/-- C1 counterexample: the ternary constructor performs no Unknown check
at all — a ternary node over an Unknown condition child is built as an
ordinary ternary node, refuting the claim for ternary nodes. -/
theorem C1_counterexample :
    (literalCE (strL "x") .unknown).mType = .unknown ∧
    (ternCE (literalCE (strL "x") .unknown) (literalCE (strL "1") .literal)
        (literalCE (strL "2") .literal)).mType ≠ .unknown := by decide

/-- C1 (amended): through the unary and binary constructors an Unknown
child collapses the node to Unknown immediately, transitively through
arbitrarily deep trees; the ternary constructor has no such check. -/
theorem C1_unknown_propagation (t : ETree) (h : t.hasUnknownLeaf = true) :
    (ETree.eval t).mType = .unknown := by
  induction t with
  | leaf c => simpa [ETree.hasUnknownLeaf, ETree.eval] using h
  | un op t ih =>
    have hc := ih (by simpa [ETree.hasUnknownLeaf] using h)
    simp [ETree.eval, unaryCE, hc]
  | bin l op r ihl ihr =>
    simp only [ETree.hasUnknownLeaf, Bool.or_eq_true] at h
    rcases h with h | h
    · simp [ETree.eval, binCE, ihl h]
    · simp [ETree.eval, binCE, ihr h]

/-- C1 witness: a two-level tree with one Unknown leaf evaluates to an
Unknown node. -/
theorem C1_unknown_propagation_witness :
    (ETree.bin (ETree.un "-" (ETree.leaf (literalCE (strL "x") .unknown))) "+"
        (ETree.leaf (literalCE (strL "1") .literal))).hasUnknownLeaf = true ∧
    (ETree.eval (ETree.bin (ETree.un "-" (ETree.leaf (literalCE (strL "x") .unknown))) "+"
        (ETree.leaf (literalCE (strL "1") .literal)))).mType = .unknown :=
  ⟨by decide, C1_unknown_propagation _ (by decide)⟩

/-- C3 counterexample: the native renderer does *not* return an Unknown
node's source text unmodified — at target kind uint32 it appends the
`u` suffix to the fallback text. -/
theorem C3_counterexample :
    (literalCE (strL "foo") .unknown).mType = .unknown ∧
    cppValue (literalCE (strL "foo") .unknown) .uint32
      ≠ (literalCE (strL "foo") .unknown).expr := by decide

/-- C3 (amended): for an Unknown node the managed renderer and the plain
value renderer return exactly the source text for every target kind; the
native renderer does so only for target kinds without suffix
post-processing, and otherwise appends its target-kind-dependent
suffixes (`u` for uint32, `ull` for uint64, `ll` for int64 outside the
INT64_MIN special case) to the fallback text. -/
theorem C3_unknown_render_fallback (e : CE) (h : e.mType = .unknown) (k : Kind) :
    javaValue e k = e.expr ∧
    value0 e k = e.expr ∧
    (k ≠ .uint32 → k ≠ .uint64 → k ≠ .int64 → cppValue e k = e.expr) ∧
    cppValue e .uint32 = e.expr ++ strL "u" ∧
    cppValue e .uint64 = e.expr ++ strL "u" ++ strL "ll" ∧
    (swrap 64 (e.mValue : Int) ≠ -(2 ^ 63) →
      cppValue e .int64 = e.expr ++ strL "ll") := by
  refine ⟨?_, ?_, ?_, ?_, ?_, ?_⟩
  · cases k <;> simp [javaValue, value0, h, CE.expr]
  · simp [value0, h, CE.expr]
  · intro h1 h2 h3
    simp [cppValue, value0, h, h1, h2, h3, CE.expr]
  · simp [cppValue, value0, h, CE.expr, strL]
  · simp [cppValue, value0, h, CE.expr, strL]
  · intro hm
    have hm2 : ¬(swrap 64 (e.mValue : Int) = -9223372036854775808) := by
      intro hx
      exact hm (by rw [hx]; norm_num)
    simp [cppValue, value0, h, hm2, CE.expr, strL]

/-- C3 witness: the amended theorem at a concrete Unknown node. -/
theorem C3_unknown_render_fallback_witness :
    (literalCE (strL "foo") .unknown).mType = .unknown ∧
    javaValue (literalCE (strL "foo") .unknown) .int8
      = (literalCE (strL "foo") .unknown).expr ∧
    cppValue (literalCE (strL "foo") .unknown) .uint32
      = (literalCE (strL "foo") .unknown).expr ++ strL "u" ∧
    swrap 64 ((literalCE (strL "foo") .unknown).mValue : Int) ≠ -(2 ^ 63) ∧
    cppValue (literalCE (strL "foo") .unknown) .int64
      = (literalCE (strL "foo") .unknown).expr ++ strL "ll" := by
  have h := C3_unknown_render_fallback (literalCE (strL "foo") .unknown) (by decide)
  exact ⟨by decide, (h .int8).1, (h .uint32).2.2.2.1, by decide,
    (h .int64).2.2.2.2.2 (by decide)⟩

/-- C2: evaluating the literal constructor at the failing input `"zzz"`
(the recovery path the source writes down after its `LOG(FATAL)`, which
in C++ aborts before reaching it — see RESULTS): the node degrades to a
recoverable Unknown whose renderings all fall back to the source text. -/
theorem C2_parse_failure_recovery :
    (literalCE (strL "zzz") .literal).mType = .unknown ∧
    (literalCE (strL "zzz") .literal).expr = strL "zzz" ∧
    valueSelf (literalCE (strL "zzz") .literal) = strL "zzz" ∧
    value0 (literalCE (strL "zzz") .literal) .int32 = strL "zzz" ∧
    javaValue (literalCE (strL "zzz") .literal) .int32 = strL "zzz" := by decide

/-! Literal-parser lemmas for claims C4, C7, C8. -/

/-- `List.any` is invariant under reversal. -/
lemma any_rev (p : Char → Bool) (l : List Char) : l.reverse.any p = l.any p := by
  induction l with
  | nil => rfl
  | cons c cs ih => simp [List.any_append, ih, Bool.or_comm]

/-- The stripping loop does not touch a list whose head is not a suffix
character. -/
lemma stripLoop_nonsuffix_head (c : Char) (cs : List Char)
    (h : suffixChar c = false) : stripLoop (c :: cs) = (c :: cs, false, false) := by
  simp [stripLoop, h]

/-- The stripping loop consumes exactly a leading (reversed-suffix) block
of suffix characters, or-ing the flags. -/
lemma stripLoop_append (S L : List Char)
    (hS : ∀ c ∈ S, suffixChar c = true)
    (hL : stripLoop L = (L, false, false)) :
    stripLoop (S ++ L) = (L, S.any uChar, S.any lChar) := by
  induction S with
  | nil => simpa using hL
  | cons c S ih =>
    have hc : suffixChar c = true := hS c (by simp)
    have ih2 := ih (fun d hd => hS d (by simp [hd]))
    simp [stripLoop, hc, ih2, Bool.or_comm]

/-- A successful digit scan means every character was a digit. -/
lemma parseDigitsAux_mem (dv : Char → Option Nat) (b : Nat) (L : List Char) :
    ∀ a v, parseDigitsAux dv b a L = some v → ∀ c ∈ L, (dv c).isSome := by
  induction L with
  | nil => intro a v _ c hc; cases hc
  | cons c0 cs ih =>
    intro a v h c hc
    rw [parseDigitsAux] at h
    rcases hdv : dv c0 with _ | d
    · rw [hdv] at h; cases h
    · rw [hdv] at h
      rcases List.mem_cons.mp hc with rfl | hc2
      · simp [hdv]
      · exact ih _ _ h c hc2

/-- The four suffix characters. -/
lemma suffixChar_cases (c : Char) (h : suffixChar c = true) :
    c = 'u' ∨ c = 'U' ∨ c = 'l' ∨ c = 'L' := by
  simp only [suffixChar, Bool.or_eq_true, decide_eq_true_eq] at h
  tauto

/-- A character is either a suffix character or not, as `= true`. -/
lemma suffixChar_true_of_not_false (c : Char) (h : ¬suffixChar c = false) :
    suffixChar c = true := by
  cases hs : suffixChar c
  · exact absurd hs h
  · rfl

/-- Suffix characters are not decimal digits. -/
lemma suffix_not_dec (c : Char) (h : suffixChar c = true) : decDigit c = none := by
  rcases suffixChar_cases c h with rfl | rfl | rfl | rfl <;> decide

/-- Suffix characters are not hexadecimal digits. -/
lemma suffix_not_hex (c : Char) (h : suffixChar c = true) : hexDigit c = none := by
  rcases suffixChar_cases c h with rfl | rfl | rfl | rfl <;> decide

/-- A hex-looking text starts with `0x` or `0X`. -/
lemma isHexText_shape (D : List Char) (h : isHexText D = true) :
    ∃ c1 rest, D = '0' :: c1 :: rest ∧ (c1 = 'x' ∨ c1 = 'X') := by
  match D with
  | [] => cases h
  | [c] => cases h
  | c0 :: c1 :: rest =>
    simp only [isHexText, Bool.and_eq_true, Bool.or_eq_true, decide_eq_true_eq] at h
    exact ⟨c1, rest, by rw [h.1], h.2⟩

/-- A successful `parseUint64` run used only digit characters after the
optional hex prefix; in particular the text is nonempty and free of
suffix characters. -/
lemma parse_chars (D : List Char) (v : Nat) (hD : parseUint64 D = some v) :
    D ≠ [] ∧ ∀ c ∈ D, suffixChar c = false := by
  simp only [parseUint64] at hD
  by_cases hhex : isHexText D = true
  · rw [if_pos hhex] at hD
    obtain ⟨c1, rest, rfl, hc1⟩ := isHexText_shape D hhex
    refine ⟨by simp, ?_⟩
    have hrest : ∀ c ∈ rest, (hexDigit c).isSome := by
      intro c hc
      rcases hcore : parseDigitsNE hexDigit 16 (('0' :: c1 :: rest).drop 2)
        with _ | v0
      · rw [hcore] at hD; simp at hD
      · simp only [List.drop] at hcore
        cases hr : rest with
        | nil => rw [hr] at hc; cases hc
        | cons r0 rs =>
          rw [hr] at hcore hc
          rw [parseDigitsNE] at hcore
          exact parseDigitsAux_mem hexDigit 16 (r0 :: rs) 0 v0 hcore c hc
    intro c hc
    rcases List.mem_cons.mp hc with rfl | hc2
    · decide
    rcases List.mem_cons.mp hc2 with rfl | hc3
    · rcases hc1 with rfl | rfl <;> decide
    · by_contra hcon
      have h2 := hrest c hc3
      rw [suffix_not_hex c (suffixChar_true_of_not_false c hcon)] at h2
      cases h2
  · rw [if_neg hhex] at hD
    cases hDs : D with
    | nil =>
      rw [hDs] at hD
      rw [parseDigitsNE] at hD
      simp at hD
    | cons c0 cs =>
      rw [hDs] at hD
      refine ⟨by simp, ?_⟩
      intro c hc
      rcases hcore : parseDigitsNE decDigit 10 (c0 :: cs) with _ | v0
      · rw [hcore] at hD; simp at hD
      · rw [parseDigitsNE] at hcore
        have h2 := parseDigitsAux_mem decDigit 10 (c0 :: cs) 0 v0 hcore c (hDs ▸ hc)
        by_contra hcon
        rw [suffix_not_dec c (suffixChar_true_of_not_false c hcon)] at h2
        cases h2

/-- Suffix characters are not the hex marker. -/
lemma suffix_ne_x (c : Char) (h : suffixChar c = true) :
    (decide (c = 'x') || decide (c = 'X')) = false := by
  rcases suffixChar_cases c h with rfl | rfl | rfl | rfl <;> decide

/-- Appending a suffix block does not change the hex-prefix test. -/
lemma isHexText_append (D S : List Char) (hD : D ≠ [])
    (hS : ∀ c ∈ S, suffixChar c = true) :
    isHexText (D ++ S) = isHexText D := by
  match D with
  | [] => exact absurd rfl hD
  | [c0] =>
    match S with
    | [] => rfl
    | s :: S2 =>
      have hs := suffix_ne_x s (hS s (by simp))
      simp [isHexText, hs]
  | c0 :: c1 :: D2 => rfl

/-- What the literal constructor does on a digit text followed by any
block of suffix characters: the suffix block is stripped (flags or-ed
over it), the digits parse, and the kind is guessed from the flags, the
hex-prefix test and the value. -/
lemma literal_general (D S : List Char) (v : Nat)
    (hD : parseUint64 D = some v) (hS : ∀ c ∈ S, suffixChar c = true) :
    literalCE (D ++ S) .literal =
      { mFormatted := D ++ S, mType := .literal,
        mValueKind := guessKind (S.any lChar) (S.any uChar) (isHexText D) v,
        mValue := v } := by
  obtain ⟨hne, hallD⟩ := parse_chars D v hD
  have hLid : stripLoop D.reverse = (D.reverse, false, false) := by
    cases hrev : D.reverse with
    | nil => rfl
    | cons c cs =>
      apply stripLoop_nonsuffix_head
      exact hallD c (by rw [← List.mem_reverse, hrev]; simp)
  have h1 : stripLoop (D ++ S).reverse = (D.reverse, S.any uChar, S.any lChar) := by
    rw [List.reverse_append,
      stripLoop_append S.reverse D.reverse
        (fun c hc => hS c (List.mem_reverse.mp hc)) hLid,
      any_rev, any_rev]
  rw [literalCE, if_neg (by decide), h1]
  simp only [List.reverse_reverse]
  rw [hD, isHexText_append D S hne hS]

/-- Characters produced by the decimal renderer are decimal digit
characters. -/
lemma natToDecAux_mem (f : Nat) : ∀ n, ∀ c ∈ natToDecAux f n, ∃ m, m < 10 ∧ c = Nat.digitChar m := by
  induction f with
  | zero => intro n c hc; rw [natToDecAux] at hc; cases hc
  | succ f ih =>
    intro n c hc
    cases n with
    | zero => rw [natToDecAux] at hc; cases hc
    | succ m =>
      rw [natToDecAux] at hc
      rcases List.mem_cons.mp hc with rfl | hc2
      · exact ⟨(m + 1) % 10, Nat.mod_lt _ (by omega), rfl⟩
      · exact ih _ c hc2

/-- The digit parser inverts `Nat.digitChar` on decimal digits. -/
lemma decDigit_digitChar (m : Nat) (h : m < 10) :
    decDigit (Nat.digitChar m) = some m := by
  interval_cases m <;> decide

/-- Decimal digit characters are not suffix characters. -/
lemma digitChar_not_suffix (m : Nat) (h : m < 10) :
    suffixChar (Nat.digitChar m) = false := by
  interval_cases m <;> decide

/-- Decimal digit characters are not the hex marker. -/
lemma digitChar_not_x (m : Nat) (h : m < 10) :
    (decide (Nat.digitChar m = 'x') || decide (Nat.digitChar m = 'X')) = false := by
  interval_cases m <;> decide

/-- The digit scan splits over list append. -/
lemma parseDigitsAux_append (dv : Char → Option Nat) (b : Nat) (xs ys : List Char) :
    ∀ a, parseDigitsAux dv b a (xs ++ ys) =
      match parseDigitsAux dv b a xs with
      | some acc => parseDigitsAux dv b acc ys
      | none => none := by
  induction xs with
  | nil => intro a; rfl
  | cons c cs ih =>
    intro a
    rcases hdv : dv c with _ | d
    · simp [parseDigitsAux, hdv]
    · simp only [List.cons_append, parseDigitsAux, hdv]
      exact ih _

/-- Scanning the rendered digits of `n` starting from accumulator `a`
yields `a` shifted past them plus `n`. -/
lemma parse_natToDecAux (f : Nat) : ∀ n a, n ≤ f →
    parseDigitsAux decDigit 10 a ((natToDecAux f n).reverse)
      = some (a * 10 ^ (natToDecAux f n).length + n) := by
  induction f with
  | zero =>
    intro n a hn
    interval_cases n
    rw [natToDecAux]
    simp [parseDigitsAux]
  | succ f ih =>
    intro n a hn
    cases n with
    | zero => rw [natToDecAux]; simp [parseDigitsAux]
    | succ m =>
      rw [natToDecAux, List.reverse_cons, parseDigitsAux_append,
        ih ((m + 1) / 10) a (by omega)]
      simp only [parseDigitsAux, decDigit_digitChar _ (Nat.mod_lt _ (by omega))]
      congr 1
      have hdm := Nat.div_add_mod (m + 1) 10
      simp only [List.length_cons, pow_succ]
      ring_nf
      omega

/-- The rendered digits of a positive number form a nonempty list. -/
lemma natToDecAux_ne_nil (f n : Nat) (h1 : 1 ≤ n) (h2 : n ≤ f) :
    natToDecAux f n ≠ [] := by
  cases f with
  | zero => omega
  | succ f =>
    cases n with
    | zero => omega
    | succ m => rw [natToDecAux]; simp

/-- Re-parsing a rendered decimal number recovers it. -/
lemma parse_natToDec (n : Nat) (h : n < 2 ^ 64) : parseUint64 (natToDec n) = some n := by
  rcases Nat.eq_zero_or_pos n with rfl | hp
  · decide
  · have hhex : isHexText (natToDec n) = false := by
      rw [natToDec, if_neg (by omega)]
      cases hrev : (natToDecAux n n).reverse with
      | nil => rfl
      | cons c0 tl =>
        cases tl with
        | nil => rfl
        | cons c1 tl2 =>
          have hc1 : c1 ∈ natToDecAux n n := by
            rw [← List.mem_reverse, hrev]; simp
          obtain ⟨m, hm, rfl⟩ := natToDecAux_mem n n c1 hc1
          simp [isHexText, digitChar_not_x m hm]
    have hroundtrip := parse_natToDecAux n n 0 le_rfl
    simp only [zero_mul, zero_add] at hroundtrip
    simp only [parseUint64, hhex, Bool.false_eq_true, if_false]
    rw [natToDec, if_neg (by omega)]
    cases hrev : (natToDecAux n n).reverse with
    | nil =>
      exact absurd (List.reverse_eq_nil_iff.mp hrev) (natToDecAux_ne_nil n n hp le_rfl)
    | cons c0 tl =>
      rw [hrev] at hroundtrip
      rw [parseDigitsNE, hroundtrip]
      simp
      omega

/-- The rendered decimal digits contain no suffix characters. -/
lemma natToDec_noSuffix (n : Nat) : ∀ c ∈ natToDec n, suffixChar c = false := by
  intro c hc
  rw [natToDec] at hc
  by_cases h : n = 0
  · rw [if_pos h] at hc
    rcases List.mem_cons.mp hc with rfl | hc2
    · decide
    · cases hc2
  · rw [if_neg h] at hc
    obtain ⟨m, hm, rfl⟩ := natToDecAux_mem n n c (List.mem_reverse.mp hc)
    exact digitChar_not_suffix m hm

/-- Re-parsing a rendered decimal number as a literal succeeds and stores
the same value. -/
lemma literal_digits (n : Nat) (h : n < 2 ^ 64) :
    literalCE (natToDec n) .literal =
      { mFormatted := natToDec n, mType := .literal,
        mValueKind := guessKind false false (isHexText (natToDec n)) n,
        mValue := n } := by
  have hgen := literal_general (natToDec n) [] n (parse_natToDec n h)
    (by intro c hc; cases hc)
  simpa using hgen

/-- Canonical non-negative storage for a kind: the storage patterns a
node of that kind can hold whose value, read at the kind, is
non-negative.  (Evaluator-built nodes always store canonically: unsigned
values truncated to their width, signed values sign-extended, booleans
as 0/1.) -/
def nonnegCanon (k : Kind) (v : Nat) : Bool :=
  match k.cls with
  | .kbool => decide (v < 2)
  | .kunsigned w => decide (v < 2 ^ w)
  | .ksigned w => decide (v < 2 ^ (w - 1))
  | .invalid => false

/-- Reading an in-range value at an unsigned kind returns it. -/
lemma castU (w v : Nat) (h : v < 2 ^ w) :
    ((toU w v : Nat) : Int) % (2 : Int) ^ w = (v : Int) := by
  rw [toU, Nat.mod_eq_of_lt h]
  rw [Int.emod_eq_of_lt (by positivity) (by exact_mod_cast h)]

/-- Reading an in-range non-negative value at a signed kind returns it. -/
lemma castS (w v : Nat) (hw : 1 ≤ w) (h : v < 2 ^ (w - 1)) :
    swrap w (toS w v) = (v : Int) := by
  have hlt : v < 2 ^ w := lt_of_lt_of_le h (Nat.pow_le_pow_right (by omega) (by omega))
  have ht : toS w v = (v : Int) := by
    simp [toS, Nat.mod_eq_of_lt hlt, h]
  rw [ht]
  have h2 : (0 : Int) < 2 ^ (w - 1) := by positivity
  exact swrap_eq_self w _ (by omega) (by exact_mod_cast h) hw

/-- `cast<k>()` on a node of kind `k` holding a canonical non-negative
storage value returns exactly that value. -/
lemma castTo_self_nonneg (k : Kind) (v : Nat) (h : nonnegCanon k v = true) :
    castTo k k v = (v : Int) := by
  cases k <;> simp only [nonnegCanon, Kind.cls, decide_eq_true_eq] at h
  case vptr => exact absurd h (by decide)
  case float32 => exact absurd h (by decide)
  case float64 => exact absurd h (by decide)
  case bool => interval_cases v <;> decide
  case uint8 => exact castU 8 v h
  case uint16 => exact castU 16 v h
  case uint32 => exact castU 32 v h
  case uint64 => exact castU 64 v h
  case int8 => exact castS 8 v (by omega) (by omega)
  case int16 => exact castS 16 v (by omega) (by omega)
  case int32 => exact castS 32 v (by omega) (by omega)
  case int64 => exact castS 64 v (by omega) (by omega)

/-- Canonical non-negative storage fits in 64 bits. -/
lemma nonnegCanon_lt (k : Kind) (v : Nat) (h : nonnegCanon k v = true) :
    v < 2 ^ 64 := by
  cases k <;> simp only [nonnegCanon, Kind.cls, decide_eq_true_eq] at h
  case vptr => exact absurd h (by decide)
  case float32 => exact absurd h (by decide)
  case float64 => exact absurd h (by decide)
  all_goals omega

/-- Canonical non-negative storage only exists at computable kinds. -/
lemma nonnegCanon_cls (k : Kind) (v : Nat) (h : nonnegCanon k v = true) :
    k.cls ≠ KClass.invalid := by
  cases k <;>
    first
      | decide
      | exact absurd h (by simp [nonnegCanon, Kind.cls])

/-- The suffix combinations the grammar admits: at most one unsigned and
one long marker, in either order and case. -/
def suffixCombos : List (List Char) :=
  [[], ['u'], ['U'], ['l'], ['L'],
   ['u', 'l'], ['u', 'L'], ['U', 'l'], ['U', 'L'],
   ['l', 'u'], ['l', 'U'], ['L', 'u'], ['L', 'U']]

/-- Every admitted suffix combination consists of suffix characters. -/
lemma suffixCombos_all (S : List Char) (h : S ∈ suffixCombos) :
    ∀ c ∈ S, suffixChar c = true := by
  fin_cases h <;> decide

/-- C8: the literal constructor strips any number of trailing suffix
characters — for every digit text `D` that parses to `v` and every
trailing block `S` of suffix characters (repeats allowed), `D ++ S`
parses successfully to value `v`, and the kind is guessed with the long
flag set iff some stripped character was l/L and the unsigned flag set
iff some stripped character was u/U. -/
theorem C8_suffix_stripping (D S : List Char) (v : Nat)
    (hD : parseUint64 D = some v) (hS : ∀ c ∈ S, suffixChar c = true) :
    (literalCE (D ++ S) .literal).mType = .literal ∧
    (literalCE (D ++ S) .literal).mValue = v ∧
    (literalCE (D ++ S) .literal).mValueKind
      = guessKind (S.any lChar) (S.any uChar) (isHexText D) v := by
  rw [literal_general D S v hD hS]
  exact ⟨rfl, rfl, rfl⟩

/-- C8 witness: `10uLuL` (repeated, mixed-case suffix letters) parses to
value 10 with both flags set, giving kind uint64. -/
theorem C8_suffix_stripping_witness :
    parseUint64 (strL "10") = some 10 ∧
    (∀ c ∈ strL "uLuL", suffixChar c = true) ∧
    (literalCE (strL "10" ++ strL "uLuL") .literal).mType = .literal ∧
    (literalCE (strL "10" ++ strL "uLuL") .literal).mValue = 10 ∧
    (literalCE (strL "10" ++ strL "uLuL") .literal).mValueKind
      = guessKind ((strL "uLuL").any lChar) ((strL "uLuL").any uChar)
          (isHexText (strL "10")) 10 := by
  have h := C8_suffix_stripping (strL "10") (strL "uLuL") 10 (by decide) (by decide)
  exact ⟨by decide, by decide, h.1, h.2.1, h.2.2⟩

example : (literalCE (strL "10uu") .literal).mType = .literal ∧
    (literalCE (strL "10uu") .literal).mValueKind = .uint32 := by decide
example : (literalCE (strL "10llu") .literal).mType = .literal ∧
    (literalCE (strL "10llu") .literal).mValueKind = .uint64 := by decide
example : (literalCE (strL "10uLuL") .literal).mValueKind = .uint64 := by decide

/-- C4: for every well-formed literal text — digits parsing to `v`
followed by one of the admitted suffix combinations — the inferred kind
follows the §4.2 priority table, and the result is independent of the
order of the two suffix characters. -/
theorem C4_literal_kind_table (D S : List Char) (v : Nat)
    (hD : parseUint64 D = some v) (hS : S ∈ suffixCombos) :
    (literalCE (D ++ S) .literal).mType = .literal ∧
    (literalCE (D ++ S) .literal).mValueKind =
      (if S.any lChar then (if S.any uChar then Kind.uint64 else Kind.int64)
       else if S.any uChar then
         (if v ≤ UINT32_MAXv then Kind.uint32 else Kind.uint64)
       else if isHexText D then
         (if v ≤ INT32_MAXv then Kind.int32
          else if v ≤ UINT32_MAXv then Kind.uint32
          else if v ≤ INT64_MAXv then Kind.int64
          else Kind.uint64)
       else (if v ≤ INT32_MAXv then Kind.int32 else Kind.int64)) ∧
    (∀ c1 c2 : Char, suffixChar c1 = true → suffixChar c2 = true →
      (literalCE (D ++ [c1, c2]) .literal).mValueKind
        = (literalCE (D ++ [c2, c1]) .literal).mValueKind) := by
  rw [literal_general D S v hD (suffixCombos_all S hS)]
  refine ⟨rfl, rfl, ?_⟩
  intro c1 c2 h1 h2
  have hS12 : ∀ c ∈ [c1, c2], suffixChar c = true := by
    intro c hc
    rcases List.mem_cons.mp hc with rfl | hc2
    · exact h1
    rcases List.mem_cons.mp hc2 with rfl | hc3
    · exact h2
    · cases hc3
  have hS21 : ∀ c ∈ [c2, c1], suffixChar c = true := by
    intro c hc
    rcases List.mem_cons.mp hc with rfl | hc2
    · exact h2
    rcases List.mem_cons.mp hc2 with rfl | hc3
    · exact h1
    · cases hc3
  rw [literal_general D [c1, c2] v hD hS12, literal_general D [c2, c1] v hD hS21]
  simp only [List.any_cons, List.any_nil, Bool.or_false]
  rw [Bool.or_comm (lChar c1) (lChar c2), Bool.or_comm (uChar c1) (uChar c2)]

/-- C4 witness: `10uL` → uint64 per the table, and `10uL` and `10Lu`
agree. -/
theorem C4_literal_kind_table_witness :
    parseUint64 (strL "10") = some 10 ∧
    (strL "uL" ∈ suffixCombos) ∧
    (literalCE (strL "10" ++ strL "uL") .literal).mType = .literal ∧
    (literalCE (strL "10" ++ strL "uL") .literal).mValueKind =
      (if (strL "uL").any lChar then
        (if (strL "uL").any uChar then Kind.uint64 else Kind.int64)
       else if (strL "uL").any uChar then
         (if 10 ≤ UINT32_MAXv then Kind.uint32 else Kind.uint64)
       else if isHexText (strL "10") then
         (if 10 ≤ INT32_MAXv then Kind.int32
          else if 10 ≤ UINT32_MAXv then Kind.uint32
          else if 10 ≤ INT64_MAXv then Kind.int64
          else Kind.uint64)
       else (if 10 ≤ INT32_MAXv then Kind.int32 else Kind.int64)) ∧
    suffixChar 'u' = true ∧ suffixChar 'L' = true ∧
    (literalCE (strL "10" ++ ['u', 'L']) .literal).mValueKind
      = (literalCE (strL "10" ++ ['L', 'u']) .literal).mValueKind := by
  have h := C4_literal_kind_table (strL "10") (strL "uL") 10 (by decide) (by decide)
  exact ⟨by decide, by decide, h.1, h.2.1, by decide, by decide,
    h.2.2 'u' 'L' (by decide) (by decide)⟩

/-- C7 counterexample: the node for unary minus on literal `1` is a
non-Unknown int32 node; rendering it at its own kind gives `-1`, and
re-parsing that as a literal fails to an Unknown node (a leading minus
is not a literal token), so the stored value is not reproduced. -/
theorem C7_counterexample :
    (unaryCE "-" (literalCE (strL "1") .literal)).mType ≠ .unknown ∧
    valueSelf (unaryCE "-" (literalCE (strL "1") .literal)) = strL "-1" ∧
    (literalCE (valueSelf (unaryCE "-" (literalCE (strL "1") .literal))) .literal).mType
      = .unknown ∧
    (literalCE (valueSelf (unaryCE "-" (literalCE (strL "1") .literal))) .literal).mValue
      ≠ (unaryCE "-" (literalCE (strL "1") .literal)).mValue := by decide

/-- C7 (amended): for every non-Unknown node with canonical storage
whose value read at its own kind is non-negative, rendering the value at
the node's own kind and re-parsing the rendered text as a literal
succeeds and reproduces the stored value. -/
theorem C7_render_reparse_roundtrip (f : List Char) (τ : ConstExprType) (k : Kind) (v : Nat)
    (hτ : τ ≠ ConstExprType.unknown) (hkv : nonnegCanon k v = true) :
    (literalCE (value0 ⟨f, τ, k, v⟩ k) .literal).mType = .literal ∧
    (literalCE (value0 ⟨f, τ, k, v⟩ k) .literal).mValue = v := by
  have hlt : v < 2 ^ 64 := nonnegCanon_lt k v hkv
  have hcls : k.cls ≠ KClass.invalid := nonnegCanon_cls k v hkv
  have hv0 : value0 ⟨f, τ, k, v⟩ k = natToDec v := by
    rw [value0, if_neg (by simpa using hτ), if_neg (by simpa using hcls)]
    simp only [castTo_self_nonneg k v hkv]
    simp [intToChars]
  rw [hv0, literal_digits v hlt]
  exact ⟨rfl, rfl⟩

/-- C7 witness: the uint32 node storing 3000000000 round-trips. -/
theorem C7_render_reparse_roundtrip_witness :
    (ConstExprType.binary ≠ ConstExprType.unknown) ∧
    nonnegCanon Kind.uint32 3000000000 = true ∧
    (literalCE (value0 ⟨strL "x", .binary, .uint32, 3000000000⟩ .uint32) .literal).mType
      = .literal ∧
    (literalCE (value0 ⟨strL "x", .binary, .uint32, 3000000000⟩ .uint32) .literal).mValue
      = 3000000000 := by
  have h := C7_render_reparse_roundtrip (strL "x") .binary .uint32 3000000000
    (by decide) (by decide)
  exact ⟨by decide, by decide, h.1, h.2⟩

end Hidl
